import Mathlib

/-!
# Verification of the SEPA ingestion pipeline

Shallow embedding of the bulk ingestion pipeline of the `sepa_app`
repository (`app/services/importador.py`, `scripts/descargar_e_importar.py`,
`config/settings.py`), together with theorems settling the specification
claims about row validation, staging, deduplicating compaction, merchant
upsert semantics, error handling and pipeline idempotence.

Conventions of the embedding:
- a CSV cell read through `fila.get(k)` is modelled as `Option String`
  (`none` for an absent key or a `None` restval);
- Python's `s.strip()` is `pyStrip` (whitespace trimmed at both ends,
  implemented over the character list so terms evaluate in the kernel);
- Python's `int(s)` is `parseInt?` (surrounding whitespace, optional sign,
  digits);
- Python's `float(s)` on price cells is `parseDecimal?`, covering the
  decimal-literal fragment (sign, digits, optional fractional part) that
  the price column format uses; prices are carried as exact rationals, as
  in the `NUMERIC(10,2)` staging/final columns;
- database tables are lists of rows; a bulk operation is a function on
  those lists; the success or failure of an external effect (zip
  extraction, COPY) is an explicit boolean of the input.
-/

namespace Sepa

/-- Allow-list `COMERCIOS_PERMITIDOS` from `config/settings.py`. -/
def COMERCIOS_PERMITIDOS : List Int := [9, 12, 15, 10]

/-- Drop whitespace at both ends of a character list. -/
def stripList (l : List Char) : List Char :=
  ((l.dropWhile Char.isWhitespace).reverse.dropWhile Char.isWhitespace).reverse

/-- Python `s.strip()`. -/
def pyStrip (s : String) : String := ⟨stripList s.data⟩

/-- Value of a digit run (base 10), `0` on the empty run. -/
def valorDigitos (l : List Char) : Nat :=
  l.foldl (fun n c => 10 * n + (c.toNat - 48)) 0

/-- A nonempty all-digit run to its value, `none` otherwise. -/
def digitosANat? (l : List Char) : Option Nat :=
  if l ≠ [] ∧ l.all Char.isDigit then some (valorDigitos l) else none

/-- Python `int(s)`: strip surrounding whitespace, optional `-`/`+` sign,
then a nonempty run of digits. -/
def parseInt? (s : String) : Option Int :=
  match stripList s.data with
  | '-' :: resto => (digitosANat? resto).map (fun n => -(n : Int))
  | '+' :: resto => (digitosANat? resto).map (fun n => (n : Int))
  | l => (digitosANat? l).map (fun n => (n : Int))

/-- Split a character list on `.` (the list analogue of `splitOn "."`). -/
def dividirEnPunto : List Char → List (List Char)
  | [] => [[]]
  | c :: resto =>
      match dividirEnPunto resto with
      | [] => [[]]
      | seg :: segs =>
          if c = '.' then [] :: seg :: segs else (c :: seg) :: segs

/-- Unsigned decimal literal (`digits`, `digits.digits`, `digits.` or
`.digits`) to a scaled integer: the digit value together with the number of
fractional digits, so `90.50` becomes `(9050, 2)`. -/
def cuerpoDecimal? (l : List Char) : Option (Nat × Nat) :=
  match dividirEnPunto l with
  | [ip] => (digitosANat? ip).map (fun n => (n, 0))
  | [ip, fp] =>
      if ip = [] ∧ fp = [] then none
      else if ip.all Char.isDigit ∧ fp.all Char.isDigit then
        some (valorDigitos ip * 10 ^ fp.length + valorDigitos fp, fp.length)
      else none
  | _ => none

/-- Python `float(s)` restricted to the decimal-literal fragment used by the
price column: surrounding whitespace, optional sign, decimal body; the value
is the exact rational `±digits / 10 ^ scale`. -/
def parseDecimal? (s : String) : Option ℚ :=
  match stripList s.data with
  | '-' :: resto => (cuerpoDecimal? resto).map (fun p => mkRat (-(p.1 : Int)) (10 ^ p.2))
  | '+' :: resto => (cuerpoDecimal? resto).map (fun p => mkRat (p.1 : Int) (10 ^ p.2))
  | l => (cuerpoDecimal? l).map (fun p => mkRat (p.1 : Int) (10 ^ p.2))

/-- The guarded cell read `fila.get(k, '').strip() if fila.get(k) else ''`
used throughout `preparar_csv_para_copy`: an absent key, a `None` value and
an empty value all collapse to `""`; otherwise the value is stripped. -/
def getStr (o : Option String) : String := pyStrip (o.getD "")

/-- One raw row of a `productos.csv` file, keyed by the columns the
validator reads (the merchant-id cell is the one found by the
`id_comercio` column-name scan). -/
structure RawRow where
  id_producto : Option String
  id_comercio : Option String
  id_bandera : Option String
  productos_precio_lista : Option String
  productos_descripcion : Option String
  productos_marca : Option String
deriving DecidableEq

/-- The six rejection counters of the `errores` dictionary in
`preparar_csv_para_copy`. -/
inductive Motivo where
  | sin_id_producto
  | id_comercio_no_permitido
  | sin_id_bandera
  | sin_precio
  | sin_descripcion
  | otros
deriving DecidableEq

/-- A normalized listing row as written to the clean CSV (and hence as a
staging-table row: the COPY transfers it verbatim). -/
structure ProductoRow where
  id_comercio : Int
  id_bandera : Int
  id_producto : String
  productos_precio_lista : ℚ
  productos_descripcion : String
  productos_marca : String
deriving DecidableEq

/-- Per-row validation of `preparar_csv_para_copy` (lines 276–329):
checks applied in source order, first failing check wins. -/
def validarFila (fila : RawRow) : Except Motivo ProductoRow :=
  let id_producto := getStr fila.id_producto
  if id_producto = "" then .error .sin_id_producto
  else
    let id_comercio_valor := getStr fila.id_comercio
    if id_comercio_valor = "" then .error .otros
    else
      match parseInt? id_comercio_valor with
      | none => .error .otros
      | some id_comercio =>
        if id_comercio ∈ COMERCIOS_PERMITIDOS then
          let id_bandera_str := getStr fila.id_bandera
          if id_bandera_str = "" then .error .sin_id_bandera
          else
            match parseInt? id_bandera_str with
            | none => .error .sin_id_bandera
            | some id_bandera =>
              let precio_str := getStr fila.productos_precio_lista
              if precio_str = "" then .error .sin_precio
              else
                match parseDecimal? precio_str with
                | none => .error .sin_precio
                | some precio_lista =>
                  let descripcion := getStr fila.productos_descripcion
                  if descripcion = "" then .error .sin_descripcion
                  else .ok
                    { id_comercio := id_comercio
                      id_bandera := id_bandera
                      id_producto := id_producto
                      productos_precio_lista := precio_lista
                      productos_descripcion := descripcion
                      productos_marca := getStr fila.productos_marca }
        else .error .id_comercio_no_permitido

/-- The `errores` counter dictionary. -/
structure Errores where
  sin_id_producto : Nat
  id_comercio_no_permitido : Nat
  sin_id_bandera : Nat
  sin_precio : Nat
  sin_descripcion : Nat
  otros : Nat
deriving DecidableEq

def Errores.cero : Errores := ⟨0, 0, 0, 0, 0, 0⟩

/-- `sum(errores.values())`. -/
def Errores.total (e : Errores) : Nat :=
  e.sin_id_producto + e.id_comercio_no_permitido + e.sin_id_bandera +
    e.sin_precio + e.sin_descripcion + e.otros

/-- `errores[motivo] += 1`. -/
def Errores.registrar (e : Errores) : Motivo → Errores
  | .sin_id_producto => { e with sin_id_producto := e.sin_id_producto + 1 }
  | .id_comercio_no_permitido =>
      { e with id_comercio_no_permitido := e.id_comercio_no_permitido + 1 }
  | .sin_id_bandera => { e with sin_id_bandera := e.sin_id_bandera + 1 }
  | .sin_precio => { e with sin_precio := e.sin_precio + 1 }
  | .sin_descripcion => { e with sin_descripcion := e.sin_descripcion + 1 }
  | .otros => { e with otros := e.otros + 1 }

/-- Loop state of `preparar_csv_para_copy`: rows written to the clean CSV,
`total_filas`, and the rejection counters. -/
structure PrepResultado where
  validas : List ProductoRow
  total : Nat
  errores : Errores
deriving DecidableEq

/-- One iteration of the row loop of `preparar_csv_para_copy`. -/
def prepPaso (acc : PrepResultado) (fila : RawRow) : PrepResultado :=
  match validarFila fila with
  | .ok r => { acc with validas := acc.validas ++ [r], total := acc.total + 1 }
  | .error m => { acc with total := acc.total + 1, errores := acc.errores.registrar m }

/-- `preparar_csv_para_copy` over an already-opened file with a well-formed
header: classify every data row, writing valid rows in order. -/
def prepararCsv (filas : List RawRow) : PrepResultado :=
  filas.foldl prepPaso ⟨[], 0, Errores.cero⟩

/-- `importar_productos_desde_csv` (lines 338–389): prepare the clean CSV,
then COPY it into the staging table. `copy_ok` is the success of the COPY;
on failure the transaction is rolled back (staging unchanged since the last
commit) and the function reports `(0, 0)`. Result:
`(new staging table, filas_importadas, total_errores)`. -/
def importarProductos (staging : List ProductoRow) (copy_ok : Bool)
    (filas : List RawRow) : List ProductoRow × Nat × Nat :=
  let res := prepararCsv filas
  if res.validas.length = 0 then (staging, 0, res.errores.total)
  else if copy_ok then (staging ++ res.validas, res.validas.length, res.errores.total)
  else (staging, 0, 0)

/-- The deduplication key `(id_comercio, id_bandera, id_producto)`. -/
structure Clave where
  id_comercio : Int
  id_bandera : Int
  id_producto : String
deriving DecidableEq

def ProductoRow.clave (r : ProductoRow) : Clave :=
  ⟨r.id_comercio, r.id_bandera, r.id_producto⟩

/-- The row the `ORDER BY ... productos_precio_lista` sort puts first among
two candidates of one key: the cheaper one (left biased on a price tie,
standing in for the sort's unspecified deterministic tie-break). -/
def masBarato (a b : ProductoRow) : ProductoRow :=
  if b.productos_precio_lista < a.productos_precio_lista then b else a

/-- The row `DISTINCT ON` keeps for a key `k`: a minimum-price row among
the staged rows with that key, `none` if the key does not occur. -/
def elegirMinimo (staging : List ProductoRow) (k : Clave) : Option ProductoRow :=
  match staging.filter (fun r => r.clave = k) with
  | [] => none
  | r :: rs => some (rs.foldl masBarato r)

/-- The `INSERT INTO productos ... SELECT DISTINCT ON (...) ... ORDER BY
id_comercio, id_bandera, id_producto, productos_precio_lista` of
`mover_datos_staging_a_final` (lines 112–120): one row per distinct key of
the staging table, keeping a minimum-price row. -/
def compactar (staging : List ProductoRow) : List ProductoRow :=
  ((staging.map ProductoRow.clave).dedup).filterMap (elegirMinimo staging)

/-- One raw row of a `comercio.csv` file. -/
structure FilaComercio where
  id_comercio : Option String
  id_bandera : Option String
  comercio_razon_social : Option String
  comercio_bandera_nombre : Option String
  comercio_bandera_url : Option String
deriving DecidableEq

/-- A row of the `comercios` registry table. -/
structure Comercio where
  id_comercio : Int
  id_bandera : Int
  comercio_razon_social : String
  comercio_bandera_nombre : String
  comercio_bandera_url : String
deriving DecidableEq

def claveComercio (c : Comercio) : Int × Int := (c.id_comercio, c.id_bandera)

/-- Per-row validation of `importar_comercios_desde_csv` (lines 181–214):
`none` is a silently skipped row (`continue`), either on the blank-id
check, an `int()` `ValueError`, the allow-list check, or a blank/unparsable
`id_bandera`. -/
def validarComercio (fila : FilaComercio) : Option Comercio :=
  match fila.id_comercio with
  | none => none
  | some s =>
      if pyStrip s = "" then none
      else
        match parseInt? s with
        | none => none
        | some idc =>
          if idc ∈ COMERCIOS_PERMITIDOS then
            match fila.id_bandera with
            | none => none
            | some b =>
                if pyStrip b = "" then none
                else
                  match parseInt? b with
                  | none => none
                  | some idb => some
                      { id_comercio := idc
                        id_bandera := idb
                        comercio_razon_social := fila.comercio_razon_social.getD ""
                        comercio_bandera_nombre := fila.comercio_bandera_nombre.getD ""
                        comercio_bandera_url := fila.comercio_bandera_url.getD "" }
          else none

/-- `INSERT INTO comercios ... ON CONFLICT (id_comercio, id_bandera) DO
UPDATE SET ...` (lines 196–211): replace the row with the conflicting key,
or append the new row. -/
def upsertComercio (t : List Comercio) (c : Comercio) : List Comercio :=
  if t.any (fun x => claveComercio x = claveComercio c) then
    t.map (fun x => if claveComercio x = claveComercio c then c else x)
  else t ++ [c]

/-- One iteration of the row loop of `importar_comercios_desde_csv`. -/
def pasoComercio (t : List Comercio) (fila : FilaComercio) : List Comercio :=
  match validarComercio fila with
  | some c => upsertComercio t c
  | none => t

/-- `importar_comercios_desde_csv` over an opened file: upsert every
accepted row in order. -/
def importarComercios (t : List Comercio) (filas : List FilaComercio) : List Comercio :=
  filas.foldl pasoComercio t

/-- One per-merchant archive inside the dated folder, as the orchestration
loops of `procesar_zip_sepa` see it: the numeric id embedded in the file
name (if the `comercio-sepa-(\d+)` pattern matches), whether the name ends
in `.zip`, whether extraction succeeds, the parsed content of the two CSV
files when found inside (`none` when absent), and whether the staging COPY
succeeds. -/
structure ComercioZip where
  nombre_id : Option Int
  es_zip : Bool
  extraccion_ok : Bool
  comercio_csv : Option (List FilaComercio)
  productos_csv : Option (List RawRow)
  copy_ok : Bool
deriving DecidableEq

/-- The file-name filter of `procesar_zip_sepa` (lines 486–496): keep
`.zip` entries whose embedded merchant id is in the allow-list. -/
def zipPermitido (z : ComercioZip) : Bool :=
  z.es_zip &&
    match z.nombre_id with
    | some i => i ∈ COMERCIOS_PERMITIDOS
    | none => false

def zipsPermitidos (zs : List ComercioZip) : List ComercioZip :=
  zs.filter zipPermitido

/-- FASE 2 (lines 513–545): for each selected archive, extract it (an
extraction error is caught and the merchant skipped), locate
`comercio.csv` and import it into the registry. -/
def faseComercios (zs : List ComercioZip) : List Comercio :=
  zs.foldl
    (fun t z =>
      if z.extraccion_ok then
        match z.comercio_csv with
        | some filas => importarComercios t filas
        | none => t
      else t)
    []

/-- Accumulator of FASE 3: the staging table plus the
`total_productos`/`total_errores` counters. -/
structure EstadoCarga where
  staging : List ProductoRow
  total_productos : Nat
  total_errores : Nat
deriving DecidableEq

/-- One iteration of the FASE 3 loop (lines 551–590): extract the archive
(errors caught, merchant skipped), locate `productos.csv`, and bulk-load it
into staging. -/
def pasoProductos (acc : EstadoCarga) (z : ComercioZip) : EstadoCarga :=
  if z.extraccion_ok then
    match z.productos_csv with
    | some filas =>
        let r := importarProductos acc.staging z.copy_ok filas
        { staging := r.1
          total_productos := acc.total_productos + r.2.1
          total_errores := acc.total_errores + r.2.2 }
    | none => acc
  else acc

/-- FASE 3 over the selected archives, starting from the truncated staging
table. -/
def faseProductos (zs : List ComercioZip) : EstadoCarga :=
  zs.foldl pasoProductos ⟨[], 0, 0⟩

/-- The three tables of the database. -/
structure EstadoDB where
  comercios : List Comercio
  productos : List ProductoRow
  productos_staging : List ProductoRow
deriving DecidableEq

/-- A successful run of `procesar_zip_sepa` (lines 437–622) over the
archives of the dated folder: FASE 1 truncates all three tables, FASE 2
rebuilds the registry, FASE 3 stages the listings, FASE 4 compacts staging
into the final table and truncates staging (the surrogate `id` column of
`productos` is not modelled). FASE 5 builds indexes, which does not change
any table's rows. -/
def procesarZipSepa (db : EstadoDB) (zs : List ComercioZip) : EstadoDB :=
  let truncado : EstadoDB := { comercios := [], productos := [], productos_staging := [] }
  let permitidos := zipsPermitidos zs
  let registro := faseComercios permitidos
  let carga := faseProductos permitidos
  { comercios := registro
    productos := truncado.productos ++ compactar carga.staging
    productos_staging := [] }

/-- The five phases of `procesar_zip_sepa`. -/
inductive Fase where
  | tablas
  | comercios
  | productos
  | compactado
  | indices
deriving DecidableEq

/-- Phases `procesar_zip_sepa` executes, per archive-related failure mode:
the two existence checks fail → return before any phase; decompression
fails (`descomprimir_zip_principal` returns `None`) → FASE 1 already ran,
the rest is skipped and the function returns normally. In both failure
branches an error message is printed. -/
def procesarFases (zip_existe : Bool) (descomprimir_ok : Bool) : List Fase :=
  if ¬ zip_existe then []
  else if ¬ descomprimir_ok then [Fase.tablas]
  else [Fase.tablas, Fase.comercios, Fase.productos, Fase.compactado, Fase.indices]

/-- Whether `procesar_zip_sepa` prints an error message in the two
archive-related failure modes. -/
def procesarImprimeError (zip_existe : Bool) (descomprimir_ok : Bool) : Bool :=
  ¬ zip_existe ∨ ¬ descomprimir_ok

/-- Process exit status of `scripts/descargar_e_importar.py` `main`
(lines 72–130) on the archive-related paths: a failed download or a
missing downloaded archive exits 1; otherwise `procesar_zip_sepa` is
called and, since it returns normally on its own failure branches instead
of raising, `main` reaches `sys.exit(0)`. -/
def mainExitCode (descarga_ok : Bool) (zip_existe : Bool)
    (descomprimir_ok : Bool) : Nat :=
  if ¬ descarga_ok then 1
  else if ¬ zip_existe then 1
  else 0

instance : DecidableEq (Except Motivo ProductoRow) := fun a b =>
  match a, b with
  | .ok x, .ok y => decidable_of_iff (x = y) (by simp)
  | .error x, .error y => decidable_of_iff (x = y) (by simp)
  | .ok _, .error _ => isFalse (by simp)
  | .error _, .ok _ => isFalse (by simp)

/-! Concrete sample data used by witnesses and counterexamples. -/

/-- A well-formed listing row for merchant 9 at price 100.00. -/
def filaCien : RawRow :=
  ⟨some "123", some "9", some "1", some "100.00", some "Yerba", some "Marca"⟩

/-- A well-formed listing row for merchant 9 at price 90.50. -/
def filaNoventa : RawRow :=
  ⟨some "123", some "9", some "1", some "90.50", some "Yerba", some "Marca"⟩

/-- A listing row that is well-formed except for a negative price. -/
def filaNegativa : RawRow :=
  ⟨some "779", some "9", some "1", some "-5", some "Yerba", some "Marca"⟩

/-- The staging rows of the spec scenario: two observations of one key. -/
def stagingEscenario : List ProductoRow :=
  [⟨9, 1, "123", mkRat 10000 100, "Yerba", "Marca"⟩,
   ⟨9, 1, "123", mkRat 9050 100, "Yerba", "Marca"⟩]

/-- The key of the spec scenario. -/
def claveEscenario : Clave := ⟨9, 1, "123"⟩

/-- The spec's round-trip metadata row for merchant (9, 1). -/
def comercioVea : Comercio := ⟨9, 1, "Vea SA", "Vea", ""⟩

/-- The same key upserted again with a changed `bandera_url`. -/
def comercioVeaNuevo : Comercio := ⟨9, 1, "Vea SA", "Vea", "https://vea.example"⟩

/-- A metadata row with a blank variant-id column. -/
def filaComercioSinBandera : FilaComercio :=
  ⟨some "9", some " ", some "Vea SA", some "Vea", none⟩

/-- A merchant archive whose listing file holds one valid row but whose
staging COPY fails. -/
def zipCopyFalla : ComercioZip :=
  ⟨some 9, true, true, none, some [filaCien], false⟩

/-- A healthy merchant archive for merchant 9. -/
def zipSano : ComercioZip :=
  ⟨some 9, true, true, some [⟨some "9", some "1", some "Vea SA", some "Vea", none⟩],
    some [filaCien, filaNoventa], true⟩

/-- The registry after upserting the round-trip row once. -/
def registroVea : List Comercio := upsertComercio [] comercioVea

/-! ## Helper lemmas -/

lemma Errores.total_registrar (e : Errores) (m : Motivo) :
    (e.registrar m).total = e.total + 1 := by
  cases m <;> simp [Errores.registrar, Errores.total] <;> omega

lemma prepPaso_total (acc : PrepResultado) (fila : RawRow) :
    (prepPaso acc fila).total = acc.total + 1 := by
  unfold prepPaso
  cases validarFila fila <;> simp

lemma prepPaso_conservacion (acc : PrepResultado) (fila : RawRow) :
    (prepPaso acc fila).validas.length + (prepPaso acc fila).errores.total =
      acc.validas.length + acc.errores.total + 1 := by
  unfold prepPaso
  cases validarFila fila <;> simp [Errores.total_registrar] <;> omega

lemma foldl_prepPaso_total (filas : List RawRow) (acc : PrepResultado) :
    (List.foldl prepPaso acc filas).total = acc.total + filas.length := by
  induction filas generalizing acc with
  | nil => simp
  | cons fila resto ih =>
      rw [List.foldl_cons, ih (prepPaso acc fila), prepPaso_total]
      simp only [List.length_cons]
      omega

lemma foldl_prepPaso_conservacion (filas : List RawRow) (acc : PrepResultado) :
    (List.foldl prepPaso acc filas).validas.length +
        (List.foldl prepPaso acc filas).errores.total =
      acc.validas.length + acc.errores.total + filas.length := by
  induction filas generalizing acc with
  | nil => simp
  | cons fila resto ih =>
      rw [List.foldl_cons, ih (prepPaso acc fila), prepPaso_conservacion]
      simp only [List.length_cons]
      omega

lemma map_identidad {α : Type} (l : List α) (f : α → α) (h : ∀ x ∈ l, f x = x) :
    l.map f = l := by
  induction l with
  | nil => rfl
  | cons a resto ih =>
      rw [List.map_cons, h a (List.mem_cons_self a resto),
        ih (fun x hx => h x (List.mem_cons_of_mem a hx))]

lemma pasoComercio_de_none (t : List Comercio) (fila : FilaComercio)
    (h : validarComercio fila = none) : pasoComercio t fila = t := by
  simp [pasoComercio, h]

lemma validarComercio_id_none (fila : FilaComercio) (h : fila.id_comercio = none) :
    validarComercio fila = none := by
  simp [validarComercio, h]

lemma validarComercio_id_invalido (fila : FilaComercio) (s : String)
    (hs : fila.id_comercio = some s)
    (h : pyStrip s = "" ∨ parseInt? s = none ∨
      ∀ n, parseInt? s = some n → n ∉ COMERCIOS_PERMITIDOS) :
    validarComercio fila = none := by
  unfold validarComercio
  rw [hs]
  rcases h with h | h | h
  · simp [h]
  · simp [h]
  · by_cases hps : pyStrip s = ""
    · simp [hps]
    · simp only [if_neg hps]
      cases hpi : parseInt? s with
      | none => rfl
      | some n => simp [h n hpi]

lemma validarComercio_bandera_invalida (fila : FilaComercio)
    (hb : ∀ b, fila.id_bandera = some b → pyStrip b = "" ∨ parseInt? b = none) :
    validarComercio fila = none := by
  unfold validarComercio
  cases hc : fila.id_comercio with
  | none => rfl
  | some s =>
      by_cases hps : pyStrip s = ""
      · simp [hps]
      · simp only [if_neg hps]
        cases hpi : parseInt? s with
        | none => rfl
        | some idc =>
            by_cases hidc : idc ∈ COMERCIOS_PERMITIDOS
            · simp only [if_pos hidc]
              cases hbv : fila.id_bandera with
              | none => rfl
              | some b =>
                  rcases hb b hbv with h | h
                  · simp [h]
                  · simp [h]
            · simp [hidc]

lemma parseInt_vacio : parseInt? "" = none := rfl

lemma parseDecimal_vacio : parseDecimal? "" = none := rfl

lemma validar_sin_producto (fila : RawRow) (h : getStr fila.id_producto = "") :
    validarFila fila = .error .sin_id_producto := by
  simp [validarFila, h]

lemma validar_otros (fila : RawRow) (h1 : getStr fila.id_producto ≠ "")
    (h2 : parseInt? (getStr fila.id_comercio) = none) :
    validarFila fila = .error .otros := by
  by_cases hb : getStr fila.id_comercio = ""
  · simp [validarFila, h1, hb]
  · simp [validarFila, h1, hb, h2]

lemma comercio_no_vacio (fila : RawRow) (n : Int)
    (h : parseInt? (getStr fila.id_comercio) = some n) :
    getStr fila.id_comercio ≠ "" := by
  intro hv
  rw [hv, parseInt_vacio] at h
  exact Option.noConfusion h

lemma validar_no_permitido (fila : RawRow) (h1 : getStr fila.id_producto ≠ "")
    (n : Int) (h2 : parseInt? (getStr fila.id_comercio) = some n)
    (h3 : n ∉ COMERCIOS_PERMITIDOS) :
    validarFila fila = .error .id_comercio_no_permitido := by
  simp [validarFila, h1, comercio_no_vacio fila n h2, h2, h3]

lemma validar_sin_bandera (fila : RawRow) (h1 : getStr fila.id_producto ≠ "")
    (n : Int) (h2 : parseInt? (getStr fila.id_comercio) = some n)
    (h3 : n ∈ COMERCIOS_PERMITIDOS)
    (h4 : parseInt? (getStr fila.id_bandera) = none) :
    validarFila fila = .error .sin_id_bandera := by
  by_cases hb : getStr fila.id_bandera = ""
  · simp [validarFila, h1, comercio_no_vacio fila n h2, h2, h3, hb]
  · simp [validarFila, h1, comercio_no_vacio fila n h2, h2, h3, hb, h4]

lemma bandera_no_vacia (fila : RawRow) (b : Int)
    (h : parseInt? (getStr fila.id_bandera) = some b) :
    getStr fila.id_bandera ≠ "" := by
  intro hv
  rw [hv, parseInt_vacio] at h
  exact Option.noConfusion h

lemma validar_sin_precio (fila : RawRow) (h1 : getStr fila.id_producto ≠ "")
    (n b : Int) (h2 : parseInt? (getStr fila.id_comercio) = some n)
    (h3 : n ∈ COMERCIOS_PERMITIDOS)
    (h4 : parseInt? (getStr fila.id_bandera) = some b)
    (h5 : parseDecimal? (getStr fila.productos_precio_lista) = none) :
    validarFila fila = .error .sin_precio := by
  by_cases hp : getStr fila.productos_precio_lista = ""
  · simp [validarFila, h1, comercio_no_vacio fila n h2, h2, h3,
      bandera_no_vacia fila b h4, h4, hp]
  · simp [validarFila, h1, comercio_no_vacio fila n h2, h2, h3,
      bandera_no_vacia fila b h4, h4, hp, h5]

lemma precio_no_vacio (fila : RawRow) (p : ℚ)
    (h : parseDecimal? (getStr fila.productos_precio_lista) = some p) :
    getStr fila.productos_precio_lista ≠ "" := by
  intro hv
  rw [hv, parseDecimal_vacio] at h
  exact Option.noConfusion h

lemma validar_sin_descripcion (fila : RawRow) (h1 : getStr fila.id_producto ≠ "")
    (n b : Int) (p : ℚ) (h2 : parseInt? (getStr fila.id_comercio) = some n)
    (h3 : n ∈ COMERCIOS_PERMITIDOS)
    (h4 : parseInt? (getStr fila.id_bandera) = some b)
    (h5 : parseDecimal? (getStr fila.productos_precio_lista) = some p)
    (h6 : getStr fila.productos_descripcion = "") :
    validarFila fila = .error .sin_descripcion := by
  simp [validarFila, h1, comercio_no_vacio fila n h2, h2, h3,
    bandera_no_vacia fila b h4, h4, precio_no_vacio fila p h5, h5, h6]

lemma validar_acepta (fila : RawRow) (h1 : getStr fila.id_producto ≠ "")
    (n b : Int) (p : ℚ) (h2 : parseInt? (getStr fila.id_comercio) = some n)
    (h3 : n ∈ COMERCIOS_PERMITIDOS)
    (h4 : parseInt? (getStr fila.id_bandera) = some b)
    (h5 : parseDecimal? (getStr fila.productos_precio_lista) = some p)
    (h6 : getStr fila.productos_descripcion ≠ "") :
    validarFila fila = .ok ⟨n, b, getStr fila.id_producto, p,
      getStr fila.productos_descripcion, getStr fila.productos_marca⟩ := by
  simp [validarFila, h1, comercio_no_vacio fila n h2, h2, h3,
    bandera_no_vacia fila b h4, h4, precio_no_vacio fila p h5, h5, h6]

lemma validar_ok_inv (fila : RawRow) (r : ProductoRow)
    (h : validarFila fila = .ok r) :
    r.id_comercio ∈ COMERCIOS_PERMITIDOS ∧
    parseDecimal? (getStr fila.productos_precio_lista) =
      some r.productos_precio_lista := by
  by_cases h1 : getStr fila.id_producto = ""
  · rw [validar_sin_producto fila h1] at h
    exact Except.noConfusion h
  cases h2 : parseInt? (getStr fila.id_comercio) with
  | none =>
      rw [validar_otros fila h1 h2] at h
      exact Except.noConfusion h
  | some n =>
      by_cases h3 : n ∈ COMERCIOS_PERMITIDOS
      · cases h4 : parseInt? (getStr fila.id_bandera) with
        | none =>
            rw [validar_sin_bandera fila h1 n h2 h3 h4] at h
            exact Except.noConfusion h
        | some b =>
            cases h5 : parseDecimal? (getStr fila.productos_precio_lista) with
            | none =>
                rw [validar_sin_precio fila h1 n b h2 h3 h4 h5] at h
                exact Except.noConfusion h
            | some p =>
                by_cases h6 : getStr fila.productos_descripcion = ""
                · rw [validar_sin_descripcion fila h1 n b p h2 h3 h4 h5 h6] at h
                  exact Except.noConfusion h
                · rw [validar_acepta fila h1 n b p h2 h3 h4 h5 h6] at h
                  injection h with h
                  subst h
                  exact ⟨h3, rfl⟩
      · rw [validar_no_permitido fila h1 n h2 h3] at h
        exact Except.noConfusion h

lemma upsert_any (t : List Comercio) (c : Comercio) :
    (upsertComercio t c).any (fun x => claveComercio x = claveComercio c) = true := by
  unfold upsertComercio
  by_cases h : t.any (fun x => claveComercio x = claveComercio c) = true
  · rw [if_pos h]
    rcases List.any_eq_true.mp h with ⟨x, hx, hpx⟩
    refine List.any_eq_true.mpr ⟨c, ?_, by simp⟩
    exact List.mem_map.mpr ⟨x, hx, by simp [of_decide_eq_true hpx]⟩
  · rw [if_neg h]
    exact List.any_eq_true.mpr ⟨c, by simp, by simp⟩

lemma upsert_elem (t : List Comercio) (c x : Comercio) (hx : x ∈ upsertComercio t c)
    (hk : claveComercio x = claveComercio c) : x = c := by
  unfold upsertComercio at hx
  by_cases h : t.any (fun y => claveComercio y = claveComercio c) = true
  · rw [if_pos h] at hx
    rcases List.mem_map.mp hx with ⟨y, hy, hfy⟩
    by_cases hyc : claveComercio y = claveComercio c
    · rw [if_pos hyc] at hfy
      exact hfy.symm
    · rw [if_neg hyc] at hfy
      exact absurd (hfy ▸ hk) hyc
  · rw [if_neg h] at hx
    rcases List.mem_append.mp hx with hx | hx
    · exact absurd (List.any_eq_true.mpr ⟨x, hx, decide_eq_true hk⟩) h
    · simpa using hx

lemma upsert_idempotente (t : List Comercio) (c : Comercio) :
    upsertComercio (upsertComercio t c) c = upsertComercio t c := by
  have hany := upsert_any t c
  set u := upsertComercio t c with hu
  show upsertComercio u c = u
  unfold upsertComercio
  rw [if_pos hany]
  apply map_identidad
  intro x hx
  by_cases hk : claveComercio x = claveComercio c
  · rw [if_pos hk]
    exact (upsert_elem t c x (hu ▸ hx) hk).symm
  · rw [if_neg hk]

lemma claves_reemplazo (t : List Comercio) (c : Comercio) :
    (t.map (fun x => if claveComercio x = claveComercio c then c else x)).map
        claveComercio = t.map claveComercio := by
  induction t with
  | nil => rfl
  | cons a resto ih =>
      by_cases hk : claveComercio a = claveComercio c
      · simp only [List.map_cons, hk, eq_self_iff_true, ite_true, ih]
      · simp only [List.map_cons, if_neg hk, ih]

lemma upsert_nodup (t : List Comercio) (c : Comercio)
    (hnd : (t.map claveComercio).Nodup) :
    ((upsertComercio t c).map claveComercio).Nodup := by
  unfold upsertComercio
  split
  · rw [claves_reemplazo]
    exact hnd
  · rename_i h
    rw [List.map_append]
    rw [List.nodup_append]
    refine ⟨hnd, by simp, ?_⟩
    intro k hk1 hk2
    simp only [List.map_cons, List.map_nil, List.mem_singleton] at hk2
    subst hk2
    rcases List.mem_map.mp hk1 with ⟨y, hy, hyk⟩
    exact h (List.any_eq_true.mpr ⟨y, hy, decide_eq_true hyk⟩)

lemma filtro_reemplazo (t : List Comercio) (c : Comercio)
    (hnd : (t.map claveComercio).Nodup)
    (hmem : ∃ y ∈ t, claveComercio y = claveComercio c) :
    (t.map (fun x => if claveComercio x = claveComercio c then c else x)).filter
      (fun x => claveComercio x = claveComercio c) = [c] := by
  induction t with
  | nil =>
      rcases hmem with ⟨y, hy, _⟩
      exact absurd hy (List.not_mem_nil y)
  | cons a resto ih =>
      rw [List.map_cons, List.nodup_cons] at hnd
      obtain ⟨ha, hndr⟩ := hnd
      by_cases hk : claveComercio a = claveComercio c
      · rw [List.map_cons, if_pos hk, List.filter_cons_of_pos (by simp)]
        have hvacio : ∀ x ∈ resto.map
            (fun x => if claveComercio x = claveComercio c then c else x),
            ¬ (claveComercio x = claveComercio c) := by
          intro x hx
          rcases List.mem_map.mp hx with ⟨y, hy, hfy⟩
          by_cases hyk : claveComercio y = claveComercio c
          · exact absurd (List.mem_map.mpr ⟨y, hy, (hk.trans hyk.symm).symm⟩) ha
          · rw [if_neg hyk] at hfy
            rw [← hfy]
            exact hyk
        rw [List.filter_eq_nil_iff.mpr (by simpa using hvacio)]
      · rw [List.map_cons, if_neg hk, List.filter_cons_of_neg (by simp [hk])]
        apply ih hndr
        rcases hmem with ⟨y, hy, hyk⟩
        rcases List.mem_cons.mp hy with rfl | hy
        · exact absurd hyk hk
        · exact ⟨y, hy, hyk⟩

lemma upsert_filtro (t : List Comercio) (c : Comercio)
    (hnd : (t.map claveComercio).Nodup) :
    (upsertComercio t c).filter (fun x => claveComercio x = claveComercio c) = [c] := by
  unfold upsertComercio
  split
  · rename_i h
    rcases List.any_eq_true.mp h with ⟨y, hy, hpy⟩
    exact filtro_reemplazo t c hnd ⟨y, hy, of_decide_eq_true hpy⟩
  · rename_i h
    rw [List.filter_append]
    have hvacio : ∀ x ∈ t, ¬ (claveComercio x = claveComercio c) := by
      intro x hx hk
      exact h (List.any_eq_true.mpr ⟨x, hx, decide_eq_true hk⟩)
    rw [List.filter_eq_nil_iff.mpr (by simpa using hvacio), List.nil_append]
    simp

lemma prepPaso_validas (acc : PrepResultado) (fila : RawRow) :
    (prepPaso acc fila).validas =
      acc.validas ++ (match validarFila fila with
        | .ok r => [r]
        | .error _ => []) := by
  unfold prepPaso
  cases validarFila fila <;> simp

lemma foldl_prepPaso_permitidos (filas : List RawRow) (acc : PrepResultado)
    (hacc : ∀ r ∈ acc.validas, r.id_comercio ∈ COMERCIOS_PERMITIDOS) :
    ∀ r ∈ (List.foldl prepPaso acc filas).validas,
      r.id_comercio ∈ COMERCIOS_PERMITIDOS := by
  induction filas generalizing acc with
  | nil => exact hacc
  | cons fila resto ih =>
      rw [List.foldl_cons]
      apply ih
      intro r hr
      rw [prepPaso_validas] at hr
      rcases List.mem_append.mp hr with hr | hr
      · exact hacc r hr
      · cases hv : validarFila fila with
        | error m =>
            rw [hv] at hr
            exact absurd hr (List.not_mem_nil r)
        | ok r0 =>
            rw [hv, List.mem_singleton] at hr
            subst hr
            exact (validar_ok_inv fila r hv).1

lemma prepararCsv_permitidos (filas : List RawRow) :
    ∀ r ∈ (prepararCsv filas).validas, r.id_comercio ∈ COMERCIOS_PERMITIDOS :=
  foldl_prepPaso_permitidos filas ⟨[], 0, Errores.cero⟩
    (fun r hr => absurd hr (List.not_mem_nil r))

lemma importar_mem (s : List ProductoRow) (ok : Bool) (filas : List RawRow)
    (r : ProductoRow) (hr : r ∈ (importarProductos s ok filas).1) :
    r ∈ s ∨ r ∈ (prepararCsv filas).validas := by
  by_cases hv : (prepararCsv filas).validas.length = 0
  · simp [importarProductos, hv] at hr
    exact Or.inl hr
  · cases ok with
    | false =>
        simp [importarProductos, hv] at hr
        exact Or.inl hr
    | true =>
        simp [importarProductos, hv] at hr
        rcases hr with hr | hr
        · exact Or.inl hr
        · exact Or.inr hr

lemma foldl_pasoProductos_permitidos (zs : List ComercioZip) (acc : EstadoCarga)
    (hacc : ∀ r ∈ acc.staging, r.id_comercio ∈ COMERCIOS_PERMITIDOS) :
    ∀ r ∈ (List.foldl pasoProductos acc zs).staging,
      r.id_comercio ∈ COMERCIOS_PERMITIDOS := by
  induction zs generalizing acc with
  | nil => exact hacc
  | cons z resto ih =>
      rw [List.foldl_cons]
      apply ih
      intro r hr
      unfold pasoProductos at hr
      by_cases hext : z.extraccion_ok = true
      · rw [if_pos hext] at hr
        cases hcsv : z.productos_csv with
        | none =>
            rw [hcsv] at hr
            exact hacc r hr
        | some filas =>
            rw [hcsv] at hr
            rcases importar_mem acc.staging z.copy_ok filas r hr with h | h
            · exact hacc r h
            · exact prepararCsv_permitidos filas r h
      · rw [if_neg hext] at hr
        exact hacc r hr

lemma foldl_masBarato_mem (rs : List ProductoRow) (r : ProductoRow) :
    rs.foldl masBarato r ∈ r :: rs := by
  induction rs generalizing r with
  | nil => exact List.mem_singleton.mpr rfl
  | cons b resto ih =>
      rw [List.foldl_cons]
      have hm : masBarato r b = r ∨ masBarato r b = b := by
        unfold masBarato
        split
        · exact Or.inr rfl
        · exact Or.inl rfl
      rcases List.mem_cons.mp (ih (masBarato r b)) with h | h
      · rw [h]
        rcases hm with hm | hm
        · rw [hm]
          exact List.mem_cons_self _ _
        · rw [hm]
          exact List.mem_cons_of_mem _ (List.mem_cons_self _ _)
      · exact List.mem_cons_of_mem _ (List.mem_cons_of_mem _ h)

lemma foldl_masBarato_le (rs : List ProductoRow) (r : ProductoRow) :
    (rs.foldl masBarato r).productos_precio_lista ≤ r.productos_precio_lista ∧
    ∀ x ∈ rs,
      (rs.foldl masBarato r).productos_precio_lista ≤ x.productos_precio_lista := by
  induction rs generalizing r with
  | nil => exact ⟨le_refl _, fun x hx => absurd hx (List.not_mem_nil x)⟩
  | cons b resto ih =>
      rw [List.foldl_cons]
      obtain ⟨h1, h2⟩ := ih (masBarato r b)
      have hrb : (masBarato r b).productos_precio_lista ≤ r.productos_precio_lista ∧
          (masBarato r b).productos_precio_lista ≤ b.productos_precio_lista := by
        unfold masBarato
        split
        · rename_i hlt
          exact ⟨le_of_lt hlt, le_refl _⟩
        · rename_i hlt
          exact ⟨le_refl _, not_lt.mp hlt⟩
      refine ⟨le_trans h1 hrb.1, ?_⟩
      intro x hx
      rcases List.mem_cons.mp hx with rfl | hx
      · exact le_trans h1 hrb.2
      · exact h2 x hx

lemma elegirMinimo_mem_filter (staging : List ProductoRow) (k : Clave)
    (r : ProductoRow) (h : elegirMinimo staging k = some r) :
    r ∈ staging.filter (fun x => x.clave = k) := by
  unfold elegirMinimo at h
  cases hf : staging.filter (fun x => x.clave = k) with
  | nil =>
      rw [hf] at h
      exact Option.noConfusion h
  | cons a rs =>
      rw [hf] at h
      injection h with h
      rw [← h]
      exact foldl_masBarato_mem rs a

lemma elegirMinimo_le (staging : List ProductoRow) (k : Clave)
    (r : ProductoRow) (h : elegirMinimo staging k = some r) :
    ∀ x ∈ staging.filter (fun x => x.clave = k),
      r.productos_precio_lista ≤ x.productos_precio_lista := by
  unfold elegirMinimo at h
  cases hf : staging.filter (fun x => x.clave = k) with
  | nil =>
      rw [hf] at h
      exact Option.noConfusion h
  | cons a rs =>
      rw [hf] at h
      injection h with h
      intro x hx
      rcases List.mem_cons.mp hx with rfl | hx
      · rw [← h]
        exact (foldl_masBarato_le rs x).1
      · rw [← h]
        exact (foldl_masBarato_le rs a).2 x hx

lemma elegirMinimo_existe (staging : List ProductoRow) (k : Clave)
    (hk : k ∈ staging.map ProductoRow.clave) :
    ∃ r, elegirMinimo staging k = some r := by
  rcases List.mem_map.mp hk with ⟨y, hy, hyk⟩
  unfold elegirMinimo
  cases hf : staging.filter (fun x => x.clave = k) with
  | nil =>
      exfalso
      have hmem : y ∈ staging.filter (fun x => x.clave = k) :=
        List.mem_filter.mpr ⟨hy, decide_eq_true hyk⟩
      rw [hf] at hmem
      exact absurd hmem (List.not_mem_nil y)
  | cons a rs => exact ⟨_, rfl⟩

lemma elegirMinimo_clave (staging : List ProductoRow) (k : Clave)
    (r : ProductoRow) (h : elegirMinimo staging k = some r) :
    r.clave = k :=
  of_decide_eq_true (List.mem_filter.mp (elegirMinimo_mem_filter staging k r h)).2

lemma elegirMinimo_en_staging (staging : List ProductoRow) (k : Clave)
    (r : ProductoRow) (h : elegirMinimo staging k = some r) :
    r ∈ staging :=
  (List.mem_filter.mp (elegirMinimo_mem_filter staging k r h)).1

lemma compactar_subconjunto (staging : List ProductoRow) :
    ∀ r ∈ compactar staging, r ∈ staging := by
  intro r hr
  unfold compactar at hr
  rcases List.mem_filterMap.mp hr with ⟨k, _, hk⟩
  exact elegirMinimo_en_staging staging k r hk

lemma filtro_filterMap (l : List Clave) (staging : List ProductoRow) (k : Clave)
    (hnd : l.Nodup) :
    (k ∉ l →
      (l.filterMap (elegirMinimo staging)).filter (fun x => x.clave = k) = []) ∧
    (k ∈ l → ∀ r, elegirMinimo staging k = some r →
      (l.filterMap (elegirMinimo staging)).filter (fun x => x.clave = k) = [r]) := by
  induction l with
  | nil => exact ⟨fun _ => rfl, fun h => absurd h (List.not_mem_nil k)⟩
  | cons a resto ih =>
      rw [List.nodup_cons] at hnd
      obtain ⟨ha, hnd⟩ := hnd
      obtain ⟨ih1, ih2⟩ := ih hnd
      constructor
      · intro hk
        have hak : a ≠ k := fun h => hk (h ▸ List.mem_cons_self a resto)
        have hkr : k ∉ resto := fun h => hk (List.mem_cons_of_mem a h)
        rw [List.filterMap_cons]
        cases he : elegirMinimo staging a with
        | none => exact ih1 hkr
        | some ra =>
            rw [List.filter_cons_of_neg
              (by simp [elegirMinimo_clave staging a ra he, hak])]
            exact ih1 hkr
      · intro hk r hr
        rw [List.filterMap_cons]
        rcases List.mem_cons.mp hk with rfl | hkr
        · rw [hr]
          rw [List.filter_cons_of_pos
            (by simp [elegirMinimo_clave staging k r hr])]
          rw [ih1 ha]
        · have hak : a ≠ k := fun h => ha (h ▸ hkr)
          cases he : elegirMinimo staging a with
          | none => exact ih2 hkr r hr
          | some ra =>
              rw [List.filter_cons_of_neg
                (by simp [elegirMinimo_clave staging a ra he, hak])]
              exact ih2 hkr r hr

/-! ## Claims -/

/-- C1: after compaction, every key tuple occurring in staging has exactly
one row in the final table, whose price occurs among the staged prices of
that tuple and is a lower bound of them (that is, equals their minimum);
a tuple absent from staging has no final row. -/
theorem c1_compactacion_minimo (staging : List ProductoRow) (k : Clave) :
    (k ∈ staging.map ProductoRow.clave →
      ∃ r, (compactar staging).filter (fun x => x.clave = k) = [r] ∧
        r.productos_precio_lista ∈
          (staging.filter (fun x => x.clave = k)).map
            ProductoRow.productos_precio_lista ∧
        ∀ p ∈ (staging.filter (fun x => x.clave = k)).map
            ProductoRow.productos_precio_lista,
          r.productos_precio_lista ≤ p) ∧
    (k ∉ staging.map ProductoRow.clave →
      (compactar staging).filter (fun x => x.clave = k) = []) := by
  constructor
  · intro hk
    rcases elegirMinimo_existe staging k hk with ⟨r, hr⟩
    refine ⟨r, ?_, ?_, ?_⟩
    · unfold compactar
      exact (filtro_filterMap (staging.map ProductoRow.clave).dedup staging k
        (List.nodup_dedup _)).2 (List.mem_dedup.mpr hk) r hr
    · exact List.mem_map.mpr ⟨r, elegirMinimo_mem_filter staging k r hr, rfl⟩
    · intro p hp
      rcases List.mem_map.mp hp with ⟨x, hx, hxp⟩
      rw [← hxp]
      exact elegirMinimo_le staging k r hr x hx
  · intro hk
    unfold compactar
    exact (filtro_filterMap (staging.map ProductoRow.clave).dedup staging k
      (List.nodup_dedup _)).1 (fun h => hk (List.mem_dedup.mp h))

/-- C1 witness: the spec scenario — two staged observations of one key at
100.00 and 90.50 compact to exactly one final row whose price is among the
staged prices and below both of them. -/
theorem c1_compactacion_minimo_witness :
    claveEscenario ∈ stagingEscenario.map ProductoRow.clave ∧
    (∃ r, (compactar stagingEscenario).filter
        (fun x => x.clave = claveEscenario) = [r] ∧
      r.productos_precio_lista ∈
        (stagingEscenario.filter (fun x => x.clave = claveEscenario)).map
          ProductoRow.productos_precio_lista ∧
      ∀ p ∈ (stagingEscenario.filter (fun x => x.clave = claveEscenario)).map
          ProductoRow.productos_precio_lista,
        r.productos_precio_lista ≤ p) ∧
    compactar stagingEscenario =
      [⟨9, 1, "123", mkRat 9050 100, "Yerba", "Marca"⟩] :=
  ⟨by decide,
   (c1_compactacion_minimo stagingEscenario claveEscenario).1 (by decide),
   by decide⟩

/-- C4: for a merchant id outside the allow-list, no staged row and no
final-table row carries that id: the per-row allow-list check alone
already guarantees it, independently of the archive-name filter. -/
theorem c4_comercio_no_permitido (zs : List ComercioZip) (m : Int)
    (hm : m ∉ COMERCIOS_PERMITIDOS) :
    (∀ r ∈ (faseProductos (zipsPermitidos zs)).staging, r.id_comercio ≠ m) ∧
    (∀ (db : EstadoDB), ∀ r ∈ (procesarZipSepa db zs).productos,
      r.id_comercio ≠ m) := by
  have hstag : ∀ r ∈ (faseProductos (zipsPermitidos zs)).staging,
      r.id_comercio ∈ COMERCIOS_PERMITIDOS :=
    foldl_pasoProductos_permitidos (zipsPermitidos zs) ⟨[], 0, 0⟩
      (fun r hr => absurd hr (List.not_mem_nil r))
  constructor
  · intro r hr heq
    exact hm (heq ▸ hstag r hr)
  · intro db r hr heq
    have hr2 : r ∈ compactar (faseProductos (zipsPermitidos zs)).staging := by
      simpa [procesarZipSepa] using hr
    exact hm (heq ▸ hstag r (compactar_subconjunto _ r hr2))

/-- C4 witness: on a concrete healthy archive, a staged row and a
final-table row both have an id different from the disallowed merchant 8. -/
theorem c4_comercio_no_permitido_witness :
    (⟨9, 1, "123", mkRat 10000 100, "Yerba", "Marca"⟩ : ProductoRow).id_comercio ≠ 8 ∧
    (⟨9, 1, "123", mkRat 9050 100, "Yerba", "Marca"⟩ : ProductoRow).id_comercio ≠ 8 :=
  ⟨(c4_comercio_no_permitido [zipSano] 8 (by decide)).1
      ⟨9, 1, "123", mkRat 10000 100, "Yerba", "Marca"⟩ (by decide),
   (c4_comercio_no_permitido [zipSano] 8 (by decide)).2 ⟨[], [], []⟩
      ⟨9, 1, "123", mkRat 9050 100, "Yerba", "Marca"⟩ (by decide)⟩

/-- C10: the validator classifies each data row exactly once: the number of
rows read (`total_filas`) equals the number of rows in the input, and
equals the number of valid rows written plus the sum of the six per-reason
rejection counters. -/
theorem c10_clasificacion_exhaustiva (filas : List RawRow) :
    (prepararCsv filas).total = filas.length ∧
    (prepararCsv filas).total =
      (prepararCsv filas).validas.length + (prepararCsv filas).errores.total := by
  constructor
  · simpa using foldl_prepPaso_total filas ⟨[], 0, Errores.cero⟩
  · have h := foldl_prepPaso_conservacion filas ⟨[], 0, Errores.cero⟩
    have ht := foldl_prepPaso_total filas ⟨[], 0, Errores.cero⟩
    have hc : Errores.cero.total = 0 := rfl
    simp only [prepararCsv]
    simp only [List.length_nil, hc, Nat.zero_add] at h ht
    omega

/-- C2: a run truncates every table first and rebuilds them from the
archive alone, so the outcome does not depend on the database state the
run starts from, and running the pipeline twice on the same archive leaves
the final listing table (and the whole database state) identical to one
run. -/
theorem c2_idempotencia (db : EstadoDB) (zs : List ComercioZip) :
    procesarZipSepa (procesarZipSepa db zs) zs = procesarZipSepa db zs ∧
    (∀ otro : EstadoDB,
      (procesarZipSepa otro zs).productos = (procesarZipSepa db zs).productos) :=
  ⟨rfl, fun _ => rfl⟩

/-- C5: when the staging COPY for one merchant's listing file fails, the
rolled-back transaction leaves staging exactly as it was, zero rows are
reported for that merchant, the phase-3 accumulator is unchanged by that
merchant, and the fold simply continues with the remaining merchants. -/
theorem c5_error_copy (s : List ProductoRow) (tp te : Nat) (z : ComercioZip)
    (filas : List RawRow) (hext : z.extraccion_ok = true)
    (hcsv : z.productos_csv = some filas) (hfalla : z.copy_ok = false) :
    (importarProductos s false filas).1 = s ∧
    (importarProductos s false filas).2.1 = 0 ∧
    ((prepararCsv filas).validas ≠ [] → pasoProductos ⟨s, tp, te⟩ z = ⟨s, tp, te⟩) ∧
    (∀ (resto : List ComercioZip) (acc : EstadoCarga),
      List.foldl pasoProductos acc (z :: resto) =
        List.foldl pasoProductos (pasoProductos acc z) resto) := by
  refine ⟨?_, ?_, ?_, fun resto acc => rfl⟩
  · by_cases hv : (prepararCsv filas).validas.length = 0 <;>
      simp [importarProductos, hv]
  · by_cases hv : (prepararCsv filas).validas.length = 0 <;>
      simp [importarProductos, hv]
  · intro hval
    have hv : (prepararCsv filas).validas.length ≠ 0 := by
      simpa [List.length_eq_zero] using hval
    simp [pasoProductos, hext, hcsv, importarProductos, hfalla, hv]

/-- C5 witness: a merchant archive with one valid listing row whose COPY
fails contributes nothing to staging and reports zero rows. -/
theorem c5_error_copy_witness :
    (importarProductos [] false [filaCien]).1 = [] ∧
    (importarProductos [] false [filaCien]).2.1 = 0 ∧
    pasoProductos ⟨[], 0, 0⟩ zipCopyFalla = ⟨[], 0, 0⟩ := by
  have h := c5_error_copy [] 0 0 zipCopyFalla [filaCien] (by decide) (by decide) (by decide)
  exact ⟨h.1, h.2.1, h.2.2.1 (by decide)⟩

/-- C6 counterexample: when the outer archive exists but cannot be
decompressed, `procesar_zip_sepa` prints an error and returns normally, so
`main` exits with status 0 — not the nonzero status the claim demands
(later phases are indeed skipped). -/
theorem c6_contraejemplo :
    mainExitCode true true false = 0 ∧
    procesarImprimeError true false = true ∧
    procesarFases true false = [Fase.tablas] := by
  decide

/-- C3: the listing validator applies its checks in source order — blank
product code, blank/non-numeric merchant id, merchant id outside the
allow-list, blank/non-numeric variant id, blank/unparsable price, blank
description — the first failing check alone determines the rejection
reason, and a row passing all six checks is emitted as the normalized row
built from the parsed and trimmed cells. -/
theorem c3_orden_validacion (fila : RawRow) :
    (getStr fila.id_producto = "" →
      validarFila fila = .error .sin_id_producto) ∧
    (getStr fila.id_producto ≠ "" →
      parseInt? (getStr fila.id_comercio) = none →
      validarFila fila = .error .otros) ∧
    (∀ n : Int, getStr fila.id_producto ≠ "" →
      parseInt? (getStr fila.id_comercio) = some n →
      n ∉ COMERCIOS_PERMITIDOS →
      validarFila fila = .error .id_comercio_no_permitido) ∧
    (∀ n : Int, getStr fila.id_producto ≠ "" →
      parseInt? (getStr fila.id_comercio) = some n →
      n ∈ COMERCIOS_PERMITIDOS →
      parseInt? (getStr fila.id_bandera) = none →
      validarFila fila = .error .sin_id_bandera) ∧
    (∀ n b : Int, getStr fila.id_producto ≠ "" →
      parseInt? (getStr fila.id_comercio) = some n →
      n ∈ COMERCIOS_PERMITIDOS →
      parseInt? (getStr fila.id_bandera) = some b →
      parseDecimal? (getStr fila.productos_precio_lista) = none →
      validarFila fila = .error .sin_precio) ∧
    (∀ (n b : Int) (p : ℚ), getStr fila.id_producto ≠ "" →
      parseInt? (getStr fila.id_comercio) = some n →
      n ∈ COMERCIOS_PERMITIDOS →
      parseInt? (getStr fila.id_bandera) = some b →
      parseDecimal? (getStr fila.productos_precio_lista) = some p →
      getStr fila.productos_descripcion = "" →
      validarFila fila = .error .sin_descripcion) ∧
    (∀ (n b : Int) (p : ℚ), getStr fila.id_producto ≠ "" →
      parseInt? (getStr fila.id_comercio) = some n →
      n ∈ COMERCIOS_PERMITIDOS →
      parseInt? (getStr fila.id_bandera) = some b →
      parseDecimal? (getStr fila.productos_precio_lista) = some p →
      getStr fila.productos_descripcion ≠ "" →
      validarFila fila = .ok ⟨n, b, getStr fila.id_producto, p,
        getStr fila.productos_descripcion, getStr fila.productos_marca⟩) :=
  ⟨validar_sin_producto fila,
   validar_otros fila,
   fun n h1 h2 h3 => validar_no_permitido fila h1 n h2 h3,
   fun n h1 h2 h3 h4 => validar_sin_bandera fila h1 n h2 h3 h4,
   fun n b h1 h2 h3 h4 h5 => validar_sin_precio fila h1 n b h2 h3 h4 h5,
   fun n b p h1 h2 h3 h4 h5 h6 => validar_sin_descripcion fila h1 n b p h2 h3 h4 h5 h6,
   fun n b p h1 h2 h3 h4 h5 h6 => validar_acepta fila h1 n b p h2 h3 h4 h5 h6⟩

/-- C3 witness: a fully valid row is accepted with the parsed fields, and
a row with a blank description is rejected for exactly that reason. -/
theorem c3_orden_validacion_witness :
    validarFila filaCien = .ok ⟨9, 1, "123", mkRat 10000 100, "Yerba", "Marca"⟩ ∧
    validarFila ⟨some "123", some "9", some "1", some "100.00", some " ", none⟩ =
      .error .sin_descripcion :=
  ⟨(c3_orden_validacion filaCien).2.2.2.2.2.2 9 1 (mkRat 10000 100)
      (by decide) (by decide) (by decide) (by decide) (by decide) (by decide),
   (c3_orden_validacion ⟨some "123", some "9", some "1", some "100.00", some " ", none⟩).2.2.2.2.2.1
      9 1 (mkRat 10000 100)
      (by decide) (by decide) (by decide) (by decide) (by decide) (by decide)⟩

/-- C9 counterexample: the validator performs no sign check on prices — a
row whose price cell is `-5` passes every check, is emitted with the
negative price, and the COPY stages it, contradicting the claim that rows
are accepted only when the parsed price is at least zero. -/
theorem c9_contraejemplo :
    validarFila filaNegativa = .ok ⟨9, 1, "779", mkRat (-5) 1, "Yerba", "Marca"⟩ ∧
    (mkRat (-5) 1 : ℚ) < 0 ∧
    (importarProductos [] true [filaNegativa]).1 =
      [⟨9, 1, "779", mkRat (-5) 1, "Yerba", "Marca"⟩] :=
  ⟨by decide, by decide, by decide⟩

/-- C9 amended: the price of every normalized listing row is exactly the
number the price cell parses to — the validator imposes no sign
restriction, so negative parsed prices are accepted and staged unchanged. -/
theorem c9_precio_sin_signo (fila : RawRow) (r : ProductoRow)
    (h : validarFila fila = .ok r) :
    parseDecimal? (getStr fila.productos_precio_lista) =
      some r.productos_precio_lista :=
  (validar_ok_inv fila r h).2

/-- C9 witness: the amended statement applied to the negative-price row. -/
theorem c9_precio_sin_signo_witness :
    parseDecimal? (getStr filaNegativa.productos_precio_lista) =
      some (mkRat (-5) 1) :=
  c9_precio_sin_signo filaNegativa ⟨9, 1, "779", mkRat (-5) 1, "Yerba", "Marca"⟩
    (by decide)

/-- C7: a merchant metadata row whose merchant-id cell is absent, blank,
non-numeric or outside the allow-list, or whose variant-id cell is absent,
blank or non-numeric, is rejected by the validator and leaves the registry
untouched. -/
theorem c7_comercio_rechazado (t : List Comercio) (fila : FilaComercio) :
    (fila.id_comercio = none →
      validarComercio fila = none ∧ pasoComercio t fila = t) ∧
    (∀ s, fila.id_comercio = some s → pyStrip s = "" →
      validarComercio fila = none ∧ pasoComercio t fila = t) ∧
    (∀ s, fila.id_comercio = some s → parseInt? s = none →
      validarComercio fila = none ∧ pasoComercio t fila = t) ∧
    (∀ s n, fila.id_comercio = some s → parseInt? s = some n →
      n ∉ COMERCIOS_PERMITIDOS →
      validarComercio fila = none ∧ pasoComercio t fila = t) ∧
    (fila.id_bandera = none →
      validarComercio fila = none ∧ pasoComercio t fila = t) ∧
    (∀ b, fila.id_bandera = some b → pyStrip b = "" →
      validarComercio fila = none ∧ pasoComercio t fila = t) ∧
    (∀ b, fila.id_bandera = some b → parseInt? b = none →
      validarComercio fila = none ∧ pasoComercio t fila = t) := by
  have par : ∀ h : validarComercio fila = none,
      validarComercio fila = none ∧ pasoComercio t fila = t :=
    fun h => ⟨h, pasoComercio_de_none t fila h⟩
  refine ⟨fun h => par (validarComercio_id_none fila h),
    fun s hs h => par (validarComercio_id_invalido fila s hs (Or.inl h)),
    fun s hs h => par (validarComercio_id_invalido fila s hs (Or.inr (Or.inl h))),
    fun s n hs hn hnp => par (validarComercio_id_invalido fila s hs
      (Or.inr (Or.inr (fun m hm => by rw [hn] at hm; injection hm with hm; rwa [← hm])))),
    fun h => par (validarComercio_bandera_invalida fila
      (fun b hb => absurd hb (by rw [h]; exact fun hx => Option.noConfusion hx))),
    fun b hb h => par (validarComercio_bandera_invalida fila
      (fun x hx => by rw [hb] at hx; injection hx with hx; rw [← hx]; exact Or.inl h)),
    fun b hb h => par (validarComercio_bandera_invalida fila
      (fun x hx => by rw [hb] at hx; injection hx with hx; rw [← hx]; exact Or.inr h))⟩

/-- C7 witness: a metadata row with a blank variant-id column is skipped
and leaves an empty registry empty. -/
theorem c7_comercio_rechazado_witness :
    validarComercio filaComercioSinBandera = none ∧
    pasoComercio [] filaComercioSinBandera = [] :=
  (c7_comercio_rechazado [] filaComercioSinBandera).2.2.2.2.2.1 " " rfl (by decide)

/-- C8: the merchant upsert is idempotent, and on a registry with unique
composite keys it preserves key uniqueness and leaves exactly one row for
the upserted key, carrying the new field values. -/
theorem c8_upsert_ultima_escritura (t : List Comercio) (c : Comercio) :
    upsertComercio (upsertComercio t c) c = upsertComercio t c ∧
    ((t.map claveComercio).Nodup →
      ((upsertComercio t c).map claveComercio).Nodup ∧
      (upsertComercio t c).filter
        (fun x => claveComercio x = claveComercio c) = [c]) :=
  ⟨upsert_idempotente t c,
   fun hnd => ⟨upsert_nodup t c hnd, upsert_filtro t c hnd⟩⟩

/-- C8 witness: the spec's round trip — upserting the (9, 1) row again
with a changed `bandera_url` is last-write-wins, leaving one registry row
with the new URL, and repeating the upsert changes nothing. -/
theorem c8_upsert_ultima_escritura_witness :
    upsertComercio (upsertComercio registroVea comercioVeaNuevo) comercioVeaNuevo =
      upsertComercio registroVea comercioVeaNuevo ∧
    (upsertComercio registroVea comercioVeaNuevo).filter
      (fun x => claveComercio x = claveComercio comercioVeaNuevo) = [comercioVeaNuevo] :=
  ⟨(c8_upsert_ultima_escritura registroVea comercioVeaNuevo).1,
   ((c8_upsert_ultima_escritura registroVea comercioVeaNuevo).2 (by decide)).2⟩

/-- C6 amended: a missing outer archive makes `main` exit 1 with no phase
executed; a decompression failure prints an error and skips every phase
after table setup (staging, compaction, indexing never run), but the
process exit status is 0 because `procesar_zip_sepa` returns normally
instead of raising. -/
theorem c6_fallo_archivo :
    (∀ d dok : Bool, mainExitCode d false dok = 1 ∧ procesarFases false dok = []) ∧
    procesarImprimeError true false = true ∧
    procesarFases true false = [Fase.tablas] ∧
    Fase.productos ∉ procesarFases true false ∧
    Fase.compactado ∉ procesarFases true false ∧
    Fase.indices ∉ procesarFases true false ∧
    mainExitCode true true false = 0 := by
  refine ⟨fun d dok => ⟨?_, ?_⟩, by decide, by decide, by decide, by decide, by decide, by decide⟩
  · cases d <;> rfl
  · rfl

end Sepa
